import Mathlib

/-!
Verification of the creative-to-adset reconciliation in
scripts/trigger_ai_analysis.py (function extract_creatives_for_analysis).

The source is a Python function over JSON records.  The embedding models
the records as structures whose fields are the keys the function reads,
with a missing key modelled as the default the corresponding .get call
supplies (the empty string, the empty list, zero).  Numbers are modelled
as exact rationals.  A JSON value that may be either a plain string or an
object holding a url is modelled by the sum type MediaItem.  All string
operations are modelled on the list of characters of the string, mirroring
how Python indexes strings by code point.
-/

/- Core marks the rational arithmetic operations irreducible, which blocks
the evaluation of concrete runs inside decide; the development only needs
them to unfold. -/

attribute [local semireducible] Rat.mul Rat.inv Rat.add Rat.sub

namespace Recon

/-- A media reference as it appears in the JSON lists carousel_images and
supabase_carousel_urls: either a bare url string, or an object whose url
field (the key image_url, resp. url, in the source) may be absent. -/
inductive MediaItem where
  | str (s : String)
  | obj (url : Option String)
deriving DecidableEq

/-- One record of the ad_creatives pool.  Fields are the keys the source
reads; a key that is absent in the JSON is modelled by the default of the
corresponding .get call (empty string / empty list). -/
structure Creative where
  ad_id : String
  ad_name : String
  body : String
  title : String
  carousel_images : List MediaItem
  supabase_carousel_urls : List MediaItem
  supabase_image_url : String
  image_url : String
deriving DecidableEq

/-- One record of meta_adsets (an active group, in the words of the spec).
The targeting object, which the source copies verbatim into the output and
never inspects, is omitted. -/
structure Adset where
  adset_id : String
  adset_name : String
  spend : ℚ
  impressions : ℚ
  ctr : ℚ
  purchases : ℚ
  roas : ℚ
  cpm : ℚ
deriving DecidableEq

/-- The part of the input report the function reads. -/
structure Report where
  ad_creatives : List Creative
  meta_adsets : List Adset
deriving DecidableEq

/-! ## Python primitives -/

/-- Contiguous sublist test on characters (needle occurs inside hay). -/
def subChars (needle : List Char) : List Char → Bool
  | [] => needle.isEmpty
  | c :: rest => needle.isPrefixOf (c :: rest) || subChars needle rest

/-- Python substring containment, needle in hay, on code points. -/
def pyIn (needle hay : String) : Bool :=
  subChars needle.toList hay.toList

/-- Python str.startswith on code points. -/
def pyStartsWith (pre s : String) : Bool :=
  pre.toList.isPrefixOf s.toList

/-- Python s.split on a single underscore separator (keeps empty parts). -/
def splitU : List Char → List (List Char)
  | [] => [[]]
  | c :: rest =>
    match splitU rest with
    | [] => [[]]
    | g :: gs => if c = '_' then [] :: g :: gs else (c :: g) :: gs

/-- Python underscore.join. -/
def joinU : List (List Char) → List Char
  | [] => []
  | [g] => g
  | g :: gs => g ++ '_' :: joinU gs

/-- Python int() applied to a rational: truncation toward zero. -/
def pyInt (q : ℚ) : ℤ :=
  if 0 ≤ q then ⌊q⌋ else -⌊-q⌋

/-- Rounding half to even of a rational to an integer, the tie rule of
Python round (modelled on exact rationals). -/
def roundHalfEven (q : ℚ) : ℤ :=
  if q - ⌊q⌋ < 1/2 then ⌊q⌋
  else if 1/2 < q - ⌊q⌋ then ⌊q⌋ + 1
  else if ⌊q⌋ % 2 = 0 then ⌊q⌋ else ⌊q⌋ + 1

/-- Python round(q, n): round half to even at n decimal digits. -/
def pyRound (n : ℕ) (q : ℚ) : ℚ :=
  (roundHalfEven (q * 10 ^ n) : ℚ) / 10 ^ n

/-! ## Indexing phase (Step 1 of the source) -/

/-- Association lists model the Python dicts: insertion order is kept,
assigning to an existing key updates the value in place. -/
abbrev CAList := List (String × Creative)

/-- Python dict assignment d[k] = v on an association list. -/
def upsert (k : String) (v : Creative) : CAList → CAList
  | [] => [(k, v)]
  | (k', v') :: rest => if k' = k then (k, v) :: rest else (k', v') :: upsert k v rest

/-- Python dict lookup d[k] / k in d. -/
def lookupA (k : String) : CAList → Option Creative
  | [] => none
  | (k', v) :: rest => if k' = k then some v else lookupA k rest

/-- The source: ad_id[:12] if len(ad_id) >= 12 else ad_id. -/
def idPre12 (s : String) : String :=
  if 12 ≤ s.toList.length then String.mk (s.toList.take 12) else s

/-- The source: underscore.join(name.split(underscore)[:2]) if the name
contains an underscore, else name[:20].  Used for creative_by_name_prefix
keys and for the adset side in method 3. -/
def namePre (s : String) : String :=
  if s.toList.contains '_' then String.mk (joinU ((splitU s.toList).take 2))
  else String.mk (s.toList.take 20)

/-- The three dicts built in Step 1 of the source: creative_by_ad_id,
creative_by_id_prefix and creative_by_name_prefix. -/
structure Indices where
  byAdId : CAList
  byIdPre : CAList
  byNamePre : CAList
deriving DecidableEq

/-- One iteration of the Step 1 loop over ad_creatives. -/
def indexStep (acc : Indices) (c : Creative) : Indices :=
  let acc1 :=
    if c.ad_id ≠ "" then
      let byAdId := upsert c.ad_id c acc.byAdId
      let p := idPre12 c.ad_id
      let byIdPre :=
        match lookupA p acc.byIdPre with
        | none => upsert p c acc.byIdPre
        | some existing =>
          if c.body ≠ "" ∧ existing.body = "" then upsert p c acc.byIdPre
          else if c.carousel_images ≠ [] ∧ existing.carousel_images = [] then
            upsert p c acc.byIdPre
          else acc.byIdPre
      { acc with byAdId := byAdId, byIdPre := byIdPre }
    else acc
  if c.ad_name ≠ "" then
    { acc1 with byNamePre := upsert (namePre c.ad_name) c acc1.byNamePre }
  else acc1

def buildIndices (pool : List Creative) : Indices :=
  pool.foldl indexStep { byAdId := [], byIdPre := [], byNamePre := [] }

/-! ## Matching phase (Step 2 of the source) -/

/-- The fixed keyword list of method 4. -/
def keywords : List String := ["芳香磚", "香氛磚", "LM", "優化", "互動", "任選", "組合"]

/-- The condition of method 3 on one entry of creative_by_name_prefix. -/
def nameCond (a : Adset) (e : String × Creative) : Bool :=
  pyIn (namePre a.adset_name) e.1 || pyIn e.1 (namePre a.adset_name) ||
    pyIn a.adset_name e.2.ad_name || pyIn e.2.ad_name a.adset_name

/-- Method 3: scan creative_by_name_prefix in insertion order; a candidate
whose condition holds is taken only if its ad_id was not already used. -/
def matchByName (idx : Indices) (used : List String) (a : Adset) : Option Creative :=
  (idx.byNamePre.find? fun e => nameCond a e && !(decide (e.2.ad_id ∈ used))).map (·.2)

/-- Method 4: scan the whole pool in order; skip used creatives; take the
first sharing a keyword with the adset name. -/
def matchByKeyword (pool : List Creative) (used : List String) (a : Adset) : Option Creative :=
  pool.find? fun c => !(decide (c.ad_id ∈ used)) &&
    keywords.any fun kw => pyIn kw a.adset_name && pyIn kw c.ad_name

/-- The cascade of methods 1 to 4 of the source.  Methods 1 and 2 look the
adset id, resp. its 12 character front, up in the id indices and do not
consult the used set; methods 3 and 4 skip used creatives. -/
def matchCreative (idx : Indices) (pool : List Creative) (used : List String)
    (a : Adset) : Option Creative :=
  match lookupA a.adset_id idx.byAdId with
  | some c => some c
  | none =>
    match lookupA (idPre12 a.adset_id) idx.byIdPre with
    | some c => some c
    | none =>
      match matchByName idx used a with
      | some c => some c
      | none => matchByKeyword pool used a

/-! ## Media resolution -/

/-- The source: img.get(image_url) if isinstance(img, dict) else img. -/
def itemUrl : MediaItem → Option String
  | .obj u => u
  | .str s => some s

/-- The supabase_carousel_urls branch.  When the first entry is an object
the source maps u.get over all entries keeping truthy urls (a plain string
entry in such a list would raise AttributeError in the source; the lists
the pipeline builds are homogeneous); when the first entry is a plain
string the list is used as it stands. -/
def supabaseUrls : List MediaItem → List MediaItem
  | [] => []
  | l@(.obj _ :: _) =>
    l.filterMap fun e =>
      match e with
      | .obj (some u) => if u ≠ "" then some (MediaItem.str u) else none
      | _ => none
  | l => l

/-- The loop over carousel_images: urls taken in order, an entry kept only
when its url is truthy and starts with http. -/
def itemsFiltered (items : List MediaItem) : List MediaItem :=
  items.filterMap fun img =>
    match itemUrl img with
    | some u => if u ≠ "" && pyStartsWith "http" u then some (MediaItem.str u) else none
    | none => none

/-- The source: supabase_image_url or image_url. -/
def mainUrl (c : Creative) : String :=
  if c.supabase_image_url ≠ "" then c.supabase_image_url else c.image_url

/-- Media resolution for a matched creative (lines 151 to 169 of the
source): supabase urls win when present; otherwise the filtered
carousel_images urls; otherwise the single main image url when truthy. -/
def resolveMedia (c : Creative) : List MediaItem :=
  if c.supabase_carousel_urls ≠ [] then supabaseUrls c.supabase_carousel_urls
  else if itemsFiltered c.carousel_images = [] then
    (if mainUrl c ≠ "" then [MediaItem.str (mainUrl c)] else [])
  else itemsFiltered c.carousel_images

/-! ## Derived metrics and the output record -/

/-- clicks = int(impressions * ctr / 100) if impressions and ctr else 0. -/
def derivedClicks (a : Adset) : ℤ :=
  if a.impressions ≠ 0 ∧ a.ctr ≠ 0 then pyInt (a.impressions * a.ctr / 100) else 0

/-- cvr = purchases / clicks * 100 if clicks > 0 else 0. -/
def derivedCvr (a : Adset) : ℚ :=
  if 0 < derivedClicks a then a.purchases / (derivedClicks a : ℚ) * 100 else 0

/-- The metrics object of the output record. -/
structure Metrics where
  ctr : ℚ
  cvr : ℚ
  roas : ℚ
  spend : ℚ
  purchases : ℚ
  impressions : ℚ
  cpm : ℚ
deriving DecidableEq

def mkMetrics (a : Adset) : Metrics :=
  { ctr := pyRound 2 a.ctr
    cvr := pyRound 2 (derivedCvr a)
    roas := pyRound 2 a.roas
    spend := pyRound 0 a.spend
    purchases := a.purchases
    impressions := a.impressions
    cpm := pyRound 2 a.cpm }

/-- One output record (a MatchResult in the words of the spec).  The field
matched records the matched_creative variable of the source, which the
spec model of a MatchResult carries; the other fields are the keys of the
dict the source appends, except the targeting key, copied verbatim from
the group and never inspected. -/
structure MatchResult where
  ad_id : String
  adset_id : String
  ad_name : String
  carousel_images : List MediaItem
  image_count : ℕ
  is_carousel : Bool
  metrics : Metrics
  copy : String
  matched : Option Creative
deriving DecidableEq

def mkResult (a : Adset) (m : Option Creative) : MatchResult :=
  let resolved := match m with | some c => resolveMedia c | none => []
  { ad_id := match m with | some c => c.ad_id | none => a.adset_id
    adset_id := a.adset_id
    ad_name := match m with | some c => c.ad_name | none => a.adset_name
    carousel_images := resolved.take 7
    image_count := resolved.length
    is_carousel := decide (1 < resolved.length)
    metrics := mkMetrics a
    copy := match m with | some c => if c.body ≠ "" then c.body else c.title | none => ""
    matched := m }

/-! ## The main loop and the final sort -/

/-- One iteration of the Step 2 loop: the state is the pair of the
used_creative_ids set (as a list queried only through membership) and the
accumulated output. -/
def reconStep (idx : Indices) (pool : List Creative)
    (st : List String × List MatchResult) (a : Adset) :
    List String × List MatchResult :=
  if a.spend ≤ 0 then st
  else
    let m := matchCreative idx pool st.1 a
    let used' := match m with | some c => c.ad_id :: st.1 | none => st.1
    (used', st.2 ++ [mkResult a m])

/-- Stable insertion for the descending sort by key: x goes in front of the
first element whose key is not greater, so elements with equal keys keep
their original relative order, as Python list.sort guarantees. -/
def insertDesc (key : MatchResult → ℚ) (x : MatchResult) :
    List MatchResult → List MatchResult
  | [] => [x]
  | y :: ys => if key y ≤ key x then x :: y :: ys else y :: insertDesc key x ys

/-- Python list.sort(key=..., reverse=True): the stable descending sort. -/
def sortDescBy (key : MatchResult → ℚ) (l : List MatchResult) : List MatchResult :=
  l.foldr (insertDesc key) []

/-- The embedding of extract_creatives_for_analysis: empty meta_adsets
short-circuits to the empty list; otherwise index, match each adset with
spend above zero in order, and sort the output by the spend metric
descending. -/
def extract_creatives_for_analysis (r : Report) : List MatchResult :=
  if r.meta_adsets = [] then []
  else
    let idx := buildIndices r.ad_creatives
    let st := r.meta_adsets.foldl (reconStep idx r.ad_creatives) ([], [])
    sortDescBy (fun res => res.metrics.spend) st.2

/-- The matched creative id carried by a result, when a creative matched. -/
def matchedId (r : MatchResult) : Option String := r.matched.map Creative.ad_id

/-- The length of the resolved media list of a result before the cap of 7
is applied (zero for an unmatched result). -/
def preCap (r : MatchResult) : ℕ :=
  match r.matched with
  | some c => (resolveMedia c).length
  | none => 0

/-- A result whose group id hits neither the exact id index nor the id
front index: for such a group only methods 3 and 4 can have matched. -/
def IdFree (idx : Indices) (r : MatchResult) : Prop :=
  lookupA r.adset_id idx.byAdId = none ∧ lookupA (idPre12 r.adset_id) idx.byIdPre = none

/-! ## Invariant predicates and concrete inputs used by the claims -/

/-- Every value stored in creative_by_ad_id sits under its own non-empty
ad_id as the key. -/
def GoodAd (al : CAList) : Prop :=
  ∀ k v, lookupA k al = some v → v.ad_id = k ∧ k ≠ ""

/-- The amended no-double-assignment relation: two results whose groups hit
neither id index (so that only methods 3 or 4 can have matched them) never
carry the same matched creative id. -/
def NoReuse (idx : Indices) (r s : MatchResult) : Prop :=
  IdFree idx r → IdFree idx s → ∀ i, matchedId r = some i → matchedId s = some i → False

/-- The invariant of the main loop: every matched creative id recorded in
the output so far is in the used set. -/
def UsedInv (st : List String × List MatchResult) : Prop :=
  ∀ r ∈ st.2, ∀ i, matchedId r = some i → i ∈ st.1

def gW4 : Adset :=
  { adset_id := "W4", adset_name := "w", spend := 1, impressions := 0, ctr := 0,
    purchases := 0, roas := 0, cpm := 0 }

def rptW4 : Report := { ad_creatives := [], meta_adsets := [gW4] }

def gC5a : Adset :=
  { adset_id := "G1", adset_name := "x", spend := 3/5, impressions := 0, ctr := 0,
    purchases := 0, roas := 0, cpm := 0 }

def gC5b : Adset :=
  { adset_id := "G2", adset_name := "y", spend := 7/5, impressions := 0, ctr := 0,
    purchases := 0, roas := 0, cpm := 0 }

def rptC5 : Report := { ad_creatives := [], meta_adsets := [gC5a, gC5b] }

def cC1 : Creative :=
  { ad_id := "AAAAAAAAAAAA1", ad_name := "n", body := "", title := "",
    carousel_images := [], supabase_carousel_urls := [], supabase_image_url := "",
    image_url := "" }

def gC1a : Adset :=
  { adset_id := "AAAAAAAAAAAA1", adset_name := "x", spend := 1, impressions := 0,
    ctr := 0, purchases := 0, roas := 0, cpm := 0 }

def gC1b : Adset :=
  { adset_id := "AAAAAAAAAAAA2", adset_name := "y", spend := 1, impressions := 0,
    ctr := 0, purchases := 0, roas := 0, cpm := 0 }

def rptC1 : Report := { ad_creatives := [cC1], meta_adsets := [gC1a, gC1b] }

def cX2 : Creative :=
  { ad_id := "", ad_name := "qqq", body := "", title := "", carousel_images := [],
    supabase_carousel_urls := [], supabase_image_url := "", image_url := "" }

def gX2 : Adset :=
  { adset_id := "", adset_name := "zzz", spend := 1, impressions := 0, ctr := 0,
    purchases := 0, roas := 0, cpm := 0 }

def rptX2 : Report := { ad_creatives := [cX2], meta_adsets := [gX2] }

def cW2 : Creative :=
  { ad_id := "GROUPW2", ad_name := "n", body := "", title := "",
    carousel_images := [], supabase_carousel_urls := [], supabase_image_url := "",
    image_url := "" }

def gW2 : Adset :=
  { adset_id := "GROUPW2", adset_name := "w", spend := 1, impressions := 0,
    ctr := 0, purchases := 0, roas := 0, cpm := 0 }

def rptW2 : Report := { ad_creatives := [cW2], meta_adsets := [gW2] }

def cW7a : Creative :=
  { ad_id := "W7A1", ad_name := "na", body := "", title := "",
    carousel_images := [MediaItem.str "http://a", MediaItem.str "bad",
      MediaItem.obj (some "https://b"), MediaItem.obj none],
    supabase_carousel_urls := [], supabase_image_url := "", image_url := "" }

def cW7b : Creative :=
  { ad_id := "W7B1", ad_name := "nb", body := "", title := "",
    carousel_images := [MediaItem.str "x"],
    supabase_carousel_urls := [MediaItem.str "s"], supabase_image_url := "",
    image_url := "" }

def gW7a : Adset :=
  { adset_id := "W7A1", adset_name := "wa", spend := 1, impressions := 0,
    ctr := 0, purchases := 0, roas := 0, cpm := 0 }

def gW7b : Adset :=
  { adset_id := "W7B1", adset_name := "wb", spend := 1, impressions := 0,
    ctr := 0, purchases := 0, roas := 0, cpm := 0 }

def rptW7 : Report :=
  { ad_creatives := [cW7a, cW7b], meta_adsets := [gW7a, gW7b] }

def cW8 : Creative :=
  { ad_id := "W8", ad_name := "n", body := "", title := "",
    carousel_images := [], supabase_carousel_urls := [], supabase_image_url := "",
    image_url := "fallback" }

def gW8 : Adset :=
  { adset_id := "W8", adset_name := "w", spend := 1, impressions := 0, ctr := 0,
    purchases := 0, roas := 0, cpm := 0 }

def rptW8 : Report := { ad_creatives := [cW8], meta_adsets := [gW8] }

def cX8 : Creative :=
  { ad_id := "X8", ad_name := "n", body := "", title := "",
    carousel_images := [], supabase_carousel_urls := [MediaItem.str "s"],
    supabase_image_url := "", image_url := "f" }

def gX8 : Adset :=
  { adset_id := "X8", adset_name := "w", spend := 1, impressions := 0, ctr := 0,
    purchases := 0, roas := 0, cpm := 0 }

def rptX8 : Report := { ad_creatives := [cX8], meta_adsets := [gX8] }

def gW9 : Adset :=
  { adset_id := "W9", adset_name := "w", spend := 1, impressions := 1000,
    ctr := 5, purchases := 2, roas := 0, cpm := 0 }

def rptW9 : Report := { ad_creatives := [], meta_adsets := [gW9] }

def cX10 : Creative :=
  { ad_id := "X10", ad_name := "n", body := "", title := "",
    carousel_images := [MediaItem.str "http://1", MediaItem.str "http://2",
      MediaItem.str "http://3", MediaItem.str "http://4", MediaItem.str "http://5",
      MediaItem.str "http://6", MediaItem.str "http://7", MediaItem.str "http://8",
      MediaItem.str "http://9", MediaItem.str "http://10"],
    supabase_carousel_urls := [], supabase_image_url := "", image_url := "" }

def gX10 : Adset :=
  { adset_id := "X10", adset_name := "w", spend := 1, impressions := 0, ctr := 0,
    purchases := 0, roas := 0, cpm := 0 }

def rptX10 : Report := { ad_creatives := [cX10], meta_adsets := [gX10] }

/-! ## Lemmas on the sort -/

theorem insertDesc_perm (key : MatchResult → ℚ) (x : MatchResult) (l : List MatchResult) :
    List.Perm (insertDesc key x l) (x :: l) := by
  induction l with
  | nil => rfl
  | cons y ys ih =>
    unfold insertDesc
    split
    · exact List.Perm.refl _
    · exact (ih.cons y).trans (List.Perm.swap x y ys)

theorem sortDescBy_perm (key : MatchResult → ℚ) (l : List MatchResult) :
    List.Perm (sortDescBy key l) l := by
  induction l with
  | nil => rfl
  | cons a l ih => exact (insertDesc_perm key a (sortDescBy key l)).trans (ih.cons a)

theorem mem_insertDesc {key : MatchResult → ℚ} {x z : MatchResult} {l : List MatchResult} :
    z ∈ insertDesc key x l ↔ z = x ∨ z ∈ l := by
  rw [(insertDesc_perm key x l).mem_iff, List.mem_cons]

theorem pairwise_insertDesc (key : MatchResult → ℚ) (x : MatchResult) (l : List MatchResult)
    (h : l.Pairwise fun a b => key b ≤ key a) :
    (insertDesc key x l).Pairwise fun a b => key b ≤ key a := by
  induction l with
  | nil => exact List.pairwise_singleton _ x
  | cons y ys ih =>
    rw [List.pairwise_cons] at h
    unfold insertDesc
    split
    · rename_i hk
      refine List.pairwise_cons.mpr ⟨?_, List.pairwise_cons.mpr ⟨h.1, h.2⟩⟩
      intro z hz
      rcases List.mem_cons.mp hz with rfl | hz
      · exact hk
      · exact (h.1 z hz).trans hk
    · rename_i hk
      refine List.pairwise_cons.mpr ⟨?_, ih h.2⟩
      intro z hz
      rcases mem_insertDesc.mp hz with rfl | hz
      · exact le_of_not_le hk
      · exact h.1 z hz

theorem sortDescBy_pairwise (key : MatchResult → ℚ) (l : List MatchResult) :
    (sortDescBy key l).Pairwise fun a b => key b ≤ key a := by
  induction l with
  | nil => exact List.Pairwise.nil
  | cons a l ih => exact pairwise_insertDesc key a (sortDescBy key l) ih

/-! ## Lemmas on the association lists -/

theorem lookupA_upsert_self (k : String) (v : Creative) (l : CAList) :
    lookupA k (upsert k v l) = some v := by
  induction l with
  | nil => simp [upsert, lookupA]
  | cons e rest ih =>
    obtain ⟨k', v'⟩ := e
    unfold upsert
    by_cases h : k' = k
    · simp [h, lookupA]
    · simp [h, lookupA, ih]

theorem lookupA_upsert_ne {k k0 : String} (v0 : Creative) (l : CAList) (h : k ≠ k0) :
    lookupA k (upsert k0 v0 l) = lookupA k l := by
  induction l with
  | nil => simp [upsert, lookupA, Ne.symm h]
  | cons e rest ih =>
    obtain ⟨k', v'⟩ := e
    unfold upsert
    by_cases h' : k' = k0
    · subst h'
      simp [lookupA, Ne.symm h]
    · simp [h', lookupA, ih]

theorem lookupA_upsert_cases {k k0 : String} {v v0 : Creative} {l : CAList}
    (h : lookupA k (upsert k0 v0 l) = some v) :
    (k = k0 ∧ v = v0) ∨ lookupA k l = some v := by
  by_cases hk : k = k0
  · subst hk
    rw [lookupA_upsert_self] at h
    exact Or.inl ⟨rfl, (Option.some_injective _ h).symm⟩
  · rw [lookupA_upsert_ne v0 l hk] at h
    exact Or.inr h

theorem lookupA_isSome_upsert {k : String} (k0 : String) (v0 : Creative) (l : CAList)
    (h : (lookupA k l).isSome) : (lookupA k (upsert k0 v0 l)).isSome := by
  by_cases hk : k = k0
  · subst hk
    rw [lookupA_upsert_self]
    rfl
  · rwa [lookupA_upsert_ne v0 l hk]

/-! ## Lemmas on the exact id index -/

theorem indexStep_byAdId (acc : Indices) (c : Creative) :
    (indexStep acc c).byAdId =
      if c.ad_id ≠ "" then upsert c.ad_id c acc.byAdId else acc.byAdId := by
  unfold indexStep
  by_cases h1 : c.ad_id ≠ "" <;> by_cases h2 : c.ad_name ≠ "" <;> simp [h1, h2]

theorem goodAd_indexStep {acc : Indices} (h : GoodAd acc.byAdId) (c : Creative) :
    GoodAd (indexStep acc c).byAdId := by
  rw [indexStep_byAdId]
  by_cases hc : c.ad_id ≠ ""
  · rw [if_pos hc]
    intro k v hk
    rcases lookupA_upsert_cases hk with ⟨rfl, rfl⟩ | hold
    · exact ⟨rfl, hc⟩
    · exact h k v hold
  · rwa [if_neg hc]

theorem goodAd_fold : ∀ (pool : List Creative) (acc : Indices), GoodAd acc.byAdId →
    GoodAd (pool.foldl indexStep acc).byAdId := by
  intro pool
  induction pool with
  | nil => intro acc h; simpa using h
  | cons c rest ih =>
    intro acc h
    exact ih (indexStep acc c) (goodAd_indexStep h c)

theorem buildIndices_goodAd (pool : List Creative) : GoodAd (buildIndices pool).byAdId := by
  apply goodAd_fold
  intro k v hk
  simp [lookupA] at hk

theorem byAdId_isSome_fold : ∀ (pool : List Creative) (acc : Indices) (k : String),
    (lookupA k acc.byAdId).isSome →
    (lookupA k (pool.foldl indexStep acc).byAdId).isSome := by
  intro pool
  induction pool with
  | nil => intro acc k h; simpa using h
  | cons c rest ih =>
    intro acc k h
    apply ih
    rw [indexStep_byAdId]
    by_cases hc : c.ad_id ≠ ""
    · rw [if_pos hc]
      exact lookupA_isSome_upsert _ _ _ h
    · rwa [if_neg hc]

theorem byAdId_mem_fold : ∀ (pool : List Creative) (acc : Indices) (k : String), k ≠ "" →
    (∃ c ∈ pool, c.ad_id = k) →
    (lookupA k (pool.foldl indexStep acc).byAdId).isSome := by
  intro pool
  induction pool with
  | nil =>
    intro acc k _ h
    simp at h
  | cons c rest ih =>
    intro acc k hk h
    rcases h with ⟨d, hd, hdk⟩
    rw [List.foldl_cons]
    rcases List.mem_cons.mp hd with rfl | hd
    · refine byAdId_isSome_fold rest (indexStep acc d) k ?_
      rw [indexStep_byAdId, hdk, if_pos hk, lookupA_upsert_self]
      rfl
    · exact ih (indexStep acc c) k hk ⟨d, hd, hdk⟩

theorem buildIndices_adId_found {pool : List Creative} {k : String} (hk : k ≠ "")
    (h : ∃ c ∈ pool, c.ad_id = k) :
    ∃ v, lookupA k (buildIndices pool).byAdId = some v ∧ v.ad_id = k := by
  have hs := byAdId_mem_fold pool { byAdId := [], byIdPre := [], byNamePre := [] } k hk h
  rcases Option.isSome_iff_exists.mp hs with ⟨v, hv⟩
  exact ⟨v, hv, (buildIndices_goodAd pool k v hv).1⟩

/-! ## Lemmas on the matching cascade -/

theorem matchCreative_of_byAdId {idx : Indices} {pool : List Creative} {used : List String}
    {a : Adset} {v : Creative} (h : lookupA a.adset_id idx.byAdId = some v) :
    matchCreative idx pool used a = some v := by
  unfold matchCreative
  rw [h]

theorem matchByName_not_used {idx : Indices} {used : List String} {a : Adset} {c : Creative}
    (h : matchByName idx used a = some c) : c.ad_id ∉ used := by
  unfold matchByName at h
  rcases Option.map_eq_some'.mp h with ⟨e, he, rfl⟩
  have hp := List.find?_some he
  have h2 : nameCond a e = true ∧ e.2.ad_id ∉ used := by simpa using hp
  exact h2.2

theorem matchByKeyword_not_used {pool : List Creative} {used : List String} {a : Adset}
    {c : Creative} (h : matchByKeyword pool used a = some c) : c.ad_id ∉ used := by
  unfold matchByKeyword at h
  have hp := List.find?_some h
  have h2 : c.ad_id ∉ used ∧
      (keywords.any fun kw => pyIn kw a.adset_name && pyIn kw c.ad_name) = true := by
    simpa using hp
  exact h2.1

theorem matchCreative_not_used {idx : Indices} {pool : List Creative} {used : List String}
    {a : Adset} {c : Creative}
    (h1 : lookupA a.adset_id idx.byAdId = none)
    (h2 : lookupA (idPre12 a.adset_id) idx.byIdPre = none)
    (hm : matchCreative idx pool used a = some c) : c.ad_id ∉ used := by
  unfold matchCreative at hm
  rw [h1, h2] at hm
  cases hn : matchByName idx used a with
  | some d =>
    rw [hn] at hm
    cases hm
    exact matchByName_not_used hn
  | none =>
    rw [hn] at hm
    exact matchByKeyword_not_used hm

/-! ## Lemmas on the main loop -/

theorem reconStep_snd (idx : Indices) (pool : List Creative)
    (st : List String × List MatchResult) (a : Adset) :
    (reconStep idx pool st a).2 =
      if a.spend ≤ 0 then st.2
      else st.2 ++ [mkResult a (matchCreative idx pool st.1 a)] := by
  unfold reconStep
  split
  · rfl
  · rfl

theorem mkResult_matched (a : Adset) (m : Option Creative) : (mkResult a m).matched = m := rfl

theorem mkResult_adset_id (a : Adset) (m : Option Creative) :
    (mkResult a m).adset_id = a.adset_id := rfl

theorem mkResult_metrics (a : Adset) (m : Option Creative) :
    (mkResult a m).metrics = mkMetrics a := rfl

theorem fold_results_provenance (idx : Indices) (pool : List Creative) :
    ∀ (adsets : List Adset) (st : List String × List MatchResult) (r : MatchResult),
    r ∈ (adsets.foldl (reconStep idx pool) st).2 →
    r ∈ st.2 ∨ ∃ a ∈ adsets, 0 < a.spend ∧
      ∃ used, r = mkResult a (matchCreative idx pool used a) := by
  intro adsets
  induction adsets with
  | nil =>
    intro st r h
    exact Or.inl h
  | cons a rest ih =>
    intro st r h
    rcases ih (reconStep idx pool st a) r h with hmem | ⟨b, hb, hs, used, he⟩
    · unfold reconStep at hmem
      by_cases hsp : a.spend ≤ 0
      · rw [if_pos hsp] at hmem
        exact Or.inl hmem
      · rw [if_neg hsp] at hmem
        rcases List.mem_append.mp hmem with hmem | hmem
        · exact Or.inl hmem
        · refine Or.inr ⟨a, List.mem_cons_self a rest, not_le.mp hsp, st.1, ?_⟩
          simpa using hmem
    · exact Or.inr ⟨b, List.mem_cons_of_mem a hb, hs, used, he⟩

theorem fold_results_suffix (idx : Indices) (pool : List Creative) :
    ∀ (adsets : List Adset) (st : List String × List MatchResult),
    ∃ t, (adsets.foldl (reconStep idx pool) st).2 = st.2 ++ t := by
  intro adsets
  induction adsets with
  | nil => intro st; exact ⟨[], by simp⟩
  | cons a rest ih =>
    intro st
    rcases ih (reconStep idx pool st a) with ⟨t, ht⟩
    rw [List.foldl_cons]
    rw [reconStep_snd] at ht
    by_cases hsp : a.spend ≤ 0
    · rw [if_pos hsp] at ht
      exact ⟨t, ht⟩
    · rw [if_neg hsp] at ht
      exact ⟨mkResult a (matchCreative idx pool st.1 a) :: t, by simpa using ht⟩

theorem fold_results_exists (idx : Indices) (pool : List Creative) :
    ∀ (adsets : List Adset) (st : List String × List MatchResult) (a : Adset),
    a ∈ adsets → 0 < a.spend →
    ∃ r ∈ (adsets.foldl (reconStep idx pool) st).2, r.adset_id = a.adset_id := by
  intro adsets
  induction adsets with
  | nil =>
    intro st a h
    exact absurd h (List.not_mem_nil a)
  | cons b rest ih =>
    intro st a ha hs
    rw [List.foldl_cons]
    rcases List.mem_cons.mp ha with rfl | ha
    · rcases fold_results_suffix idx pool rest (reconStep idx pool st a) with ⟨t, ht⟩
      refine ⟨mkResult a (matchCreative idx pool st.1 a), ?_, rfl⟩
      rw [ht, reconStep_snd, if_neg (not_le.mpr hs)]
      simp
    · exact ih (reconStep idx pool st b) a ha hs

theorem fold_results_length (idx : Indices) (pool : List Creative) :
    ∀ (adsets : List Adset) (st : List String × List MatchResult),
    (adsets.foldl (reconStep idx pool) st).2.length =
      st.2.length + (adsets.filter fun a => 0 < a.spend).length := by
  intro adsets
  induction adsets with
  | nil => intro st; simp
  | cons a rest ih =>
    intro st
    rw [List.foldl_cons, ih (reconStep idx pool st a), reconStep_snd, List.filter_cons]
    by_cases hsp : a.spend ≤ 0
    · rw [if_pos hsp, decide_eq_false (not_lt.mpr hsp)]
      simp
    · rw [if_neg hsp, decide_eq_true (not_le.mp hsp)]
      simp [List.length_append]
      omega

theorem reconStep_fst (idx : Indices) (pool : List Creative)
    (st : List String × List MatchResult) (a : Adset) :
    (reconStep idx pool st a).1 =
      if a.spend ≤ 0 then st.1
      else
        match matchCreative idx pool st.1 a with
        | some c => c.ad_id :: st.1
        | none => st.1 := by
  unfold reconStep
  split
  · rfl
  · rfl

theorem reconStep_used_sub (idx : Indices) (pool : List Creative)
    (st : List String × List MatchResult) (a : Adset) :
    st.1 ⊆ (reconStep idx pool st a).1 := by
  rw [reconStep_fst]
  by_cases hsp : a.spend ≤ 0
  · rw [if_pos hsp]
    exact fun x hx => hx
  · rw [if_neg hsp]
    intro x hx
    rcases hmc : matchCreative idx pool st.1 a with _ | c
    · simpa [hmc] using hx
    · simp only [hmc]
      exact List.mem_cons_of_mem c.ad_id hx

/-! ## No reuse by methods 3 and 4 -/

theorem noReuse_symm {idx : Indices} : ∀ {r s : MatchResult},
    NoReuse idx r s → NoReuse idx s r :=
  fun h hs hr i hsi hri => h hr hs i hri hsi

theorem matchedId_mkResult (a : Adset) (m : Option Creative) :
    matchedId (mkResult a m) = m.map Creative.ad_id := rfl

theorem usedInv_reconStep {idx : Indices} {pool : List Creative}
    {st : List String × List MatchResult} (h : UsedInv st) (a : Adset) :
    UsedInv (reconStep idx pool st a) := by
  intro r hr i hri
  rw [reconStep_snd] at hr
  rw [reconStep_fst]
  by_cases hsp : a.spend ≤ 0
  · rw [if_pos hsp] at hr
    rw [if_pos hsp]
    exact h r hr i hri
  · rw [if_neg hsp] at hr
    rw [if_neg hsp]
    rcases List.mem_append.mp hr with hr | hr
    · have hi := h r hr i hri
      cases matchCreative idx pool st.1 a with
      | some c => exact List.mem_cons_of_mem c.ad_id hi
      | none => exact hi
    · have hre : r = mkResult a (matchCreative idx pool st.1 a) := by simpa using hr
      subst hre
      rw [matchedId_mkResult] at hri
      rcases Option.map_eq_some'.mp hri with ⟨c, hc, hci⟩
      subst hci
      simp only [hc]
      exact List.mem_cons_self _ _

theorem pairwise_reconStep {idx : Indices} {pool : List Creative}
    {st : List String × List MatchResult} (hinv : UsedInv st)
    (hpw : st.2.Pairwise (NoReuse idx)) (a : Adset) :
    (reconStep idx pool st a).2.Pairwise (NoReuse idx) := by
  rw [reconStep_snd]
  by_cases hsp : a.spend ≤ 0
  · rwa [if_pos hsp]
  · rw [if_neg hsp]
    refine List.pairwise_append.mpr ⟨hpw, List.pairwise_singleton _ _, ?_⟩
    intro r hr b hb
    have hbe : b = mkResult a (matchCreative idx pool st.1 a) := by simpa using hb
    subst hbe
    intro _ hFR i hri hRi
    rw [matchedId_mkResult] at hRi
    rcases Option.map_eq_some'.mp hRi with ⟨c, hc, hci⟩
    have hnotused : c.ad_id ∉ st.1 := by
      rcases hFR with ⟨hf1, hf2⟩
      rw [mkResult_adset_id] at hf1 hf2
      exact matchCreative_not_used hf1 hf2 hc
    have hiused : i ∈ st.1 := hinv r hr i hri
    rw [hci] at hnotused
    exact hnotused hiused

theorem fold_noReuse (idx : Indices) (pool : List Creative) :
    ∀ (adsets : List Adset) (st : List String × List MatchResult),
    UsedInv st → st.2.Pairwise (NoReuse idx) →
    (adsets.foldl (reconStep idx pool) st).2.Pairwise (NoReuse idx) := by
  intro adsets
  induction adsets with
  | nil => intro st _ hpw; exact hpw
  | cons a rest ih =>
    intro st hinv hpw
    rw [List.foldl_cons]
    exact ih (reconStep idx pool st a) (usedInv_reconStep hinv a)
      (pairwise_reconStep hinv hpw a)

/-! ## Shape of the output of the whole run -/

theorem extract_of_ne {rpt : Report} (h : rpt.meta_adsets ≠ []) :
    extract_creatives_for_analysis rpt =
      sortDescBy (fun res => res.metrics.spend)
        (rpt.meta_adsets.foldl
          (reconStep (buildIndices rpt.ad_creatives) rpt.ad_creatives) ([], [])).2 := by
  unfold extract_creatives_for_analysis
  rw [if_neg h]

theorem mem_extract {rpt : Report} {r : MatchResult}
    (h : r ∈ extract_creatives_for_analysis rpt) :
    ∃ a ∈ rpt.meta_adsets, 0 < a.spend ∧ ∃ used,
      r = mkResult a
        (matchCreative (buildIndices rpt.ad_creatives) rpt.ad_creatives used a) := by
  by_cases he : rpt.meta_adsets = []
  · unfold extract_creatives_for_analysis at h
    rw [if_pos he] at h
    exact absurd h (List.not_mem_nil r)
  · rw [extract_of_ne he] at h
    have h2 := (sortDescBy_perm _ _).mem_iff.mp h
    rcases fold_results_provenance _ _ rpt.meta_adsets ([], []) r h2 with h3 | h3
    · exact absurd h3 (List.not_mem_nil r)
    · exact h3

/-! ## Lemmas on media resolution and rounding -/

theorem resolveMedia_supabase {c : Creative} (h : c.supabase_carousel_urls ≠ []) :
    resolveMedia c = supabaseUrls c.supabase_carousel_urls := by
  unfold resolveMedia
  rw [if_pos h]

theorem resolveMedia_items {c : Creative} (h : c.supabase_carousel_urls = [])
    (h2 : itemsFiltered c.carousel_images ≠ []) :
    resolveMedia c = itemsFiltered c.carousel_images := by
  have hn : ¬ (c.supabase_carousel_urls ≠ []) := by simp [h]
  unfold resolveMedia
  rw [if_neg hn, if_neg h2]

theorem resolveMedia_fallback {c : Creative} (h : c.supabase_carousel_urls = [])
    (h2 : itemsFiltered c.carousel_images = []) (h3 : mainUrl c ≠ "") :
    resolveMedia c = [MediaItem.str (mainUrl c)] := by
  have hn : ¬ (c.supabase_carousel_urls ≠ []) := by simp [h]
  unfold resolveMedia
  rw [if_neg hn, if_pos h2, if_pos h3]

theorem itemsFiltered_mem {items : List MediaItem} {m : MediaItem}
    (h : m ∈ itemsFiltered items) :
    ∃ u, m = MediaItem.str u ∧ pyStartsWith "http" u = true := by
  unfold itemsFiltered at h
  rcases List.mem_filterMap.mp h with ⟨img, _, himg⟩
  rcases hu : itemUrl img with _ | u
  · simp only [hu] at himg
    exact absurd himg (by simp)
  · simp only [hu] at himg
    by_cases hcond : (u ≠ "" && pyStartsWith "http" u) = true
    · rw [if_pos hcond] at himg
      have h2 : u ≠ "" ∧ pyStartsWith "http" u = true := by simpa using hcond
      exact ⟨u, (Option.some_injective _ himg).symm, h2.2⟩
    · rw [if_neg hcond] at himg
      simp at himg

theorem pyRound_zero (n : ℕ) : pyRound n 0 = 0 := by
  unfold pyRound roundHalfEven
  norm_num

theorem mkResult_none (a : Adset) :
    mkResult a none =
      { ad_id := a.adset_id, adset_id := a.adset_id, ad_name := a.adset_name,
        carousel_images := [], image_count := 0, is_carousel := false,
        metrics := mkMetrics a, copy := "", matched := none } := rfl

theorem mkResult_some_carousel (a : Adset) (c : Creative) :
    (mkResult a (some c)).carousel_images = (resolveMedia c).take 7 := rfl

theorem mkResult_some_imageCount (a : Adset) (c : Creative) :
    (mkResult a (some c)).image_count = (resolveMedia c).length := rfl

theorem mkResult_some_isCarousel (a : Adset) (c : Creative) :
    (mkResult a (some c)).is_carousel = decide (1 < (resolveMedia c).length) := rfl

theorem mkResult_some_ad_id (a : Adset) (c : Creative) :
    (mkResult a (some c)).ad_id = c.ad_id := rfl

theorem mkResult_carousel_le (a : Adset) (m : Option Creative) :
    (mkResult a m).carousel_images.length ≤ 7 := by
  cases m with
  | none =>
    rw [mkResult_none]
    simp
  | some c =>
    rw [mkResult_some_carousel, List.length_take]
    exact min_le_left 7 _

/-! ## The claims -/

/-- C3: the number of results equals the number of groups with spend above
zero; every result originates from a group with spend above zero (its
group id and metrics are that group's), so a group with spend zero never
contributes a result; and an empty group list yields the empty output for
any pool, not an error (the run is a total function). -/
theorem claim_C3 (rpt : Report) :
    (extract_creatives_for_analysis rpt).length =
      (rpt.meta_adsets.filter fun a => 0 < a.spend).length ∧
    (∀ r ∈ extract_creatives_for_analysis rpt,
      ∃ a ∈ rpt.meta_adsets, 0 < a.spend ∧ r.adset_id = a.adset_id ∧
        r.metrics = mkMetrics a) ∧
    extract_creatives_for_analysis
      { ad_creatives := rpt.ad_creatives, meta_adsets := [] } = [] := by
  refine ⟨?_, ?_, ?_⟩
  · by_cases he : rpt.meta_adsets = []
    · unfold extract_creatives_for_analysis
      rw [if_pos he, he]
      simp
    · rw [extract_of_ne he, (sortDescBy_perm _ _).length_eq, fold_results_length]
      simp
  · intro r hr
    rcases mem_extract hr with ⟨a, ha, hs, used, hre⟩
    subst hre
    exact ⟨a, ha, hs, rfl, rfl⟩
  · unfold extract_creatives_for_analysis
    rw [if_pos rfl]

/-- C4: the output media list of every result has at most 7 entries. -/
theorem claim_C4 (rpt : Report) (r : MatchResult)
    (h : r ∈ extract_creatives_for_analysis rpt) :
    r.carousel_images.length ≤ 7 := by
  rcases mem_extract h with ⟨a, _, _, used, hre⟩
  subst hre
  exact mkResult_carousel_le a _

/-- C4 witness: the cap holds on a concrete run with one spending group. -/
theorem claim_C4_witness : (mkResult gW4 none).carousel_images.length ≤ 7 :=
  claim_C4 rptW4 (mkResult gW4 none) (by decide)

/-- C5 amended: the output is sorted descending by the spend stored in the
result metrics, which is the group spend rounded to zero decimals. -/
theorem claim_C5 (rpt : Report) :
    (extract_creatives_for_analysis rpt).Pairwise
      fun r s => s.metrics.spend ≤ r.metrics.spend := by
  by_cases he : rpt.meta_adsets = []
  · unfold extract_creatives_for_analysis
    rw [if_pos he]
    exact List.Pairwise.nil
  · rw [extract_of_ne he]
    exact sortDescBy_pairwise _ _

/-- C5 counterexample: the sort key is the spend rounded to zero decimals,
so two groups with raw spends 0.6 and 1.4 both get key 1 and the stable
sort keeps input order; the output then starts with the group of strictly
smaller raw spend, refuting descending order of raw group spend. -/
theorem claim_C5_cex :
    (extract_creatives_for_analysis rptC5).map MatchResult.adset_id = ["G1", "G2"] ∧
    rptC5.meta_adsets.map Adset.adset_id = ["G1", "G2"] ∧
    rptC5.meta_adsets.map Adset.spend = [3/5, 7/5] ∧ ((3 : ℚ)/5 < 7/5) :=
  ⟨by decide, by decide, by decide, by decide⟩

/-- C6: a result whose match is absent keeps the group id as its id, an
empty media list and empty copy, and names its group; and every group with
spend above zero yields a result (no error path). -/
theorem claim_C6 (rpt : Report) :
    (∀ r ∈ extract_creatives_for_analysis rpt, r.matched = none →
      r.ad_id = r.adset_id ∧ r.carousel_images = [] ∧ r.copy = "" ∧
        ∃ a ∈ rpt.meta_adsets, 0 < a.spend ∧ a.adset_id = r.adset_id ∧
          a.adset_name = r.ad_name) ∧
    (∀ a ∈ rpt.meta_adsets, 0 < a.spend →
      ∃ r ∈ extract_creatives_for_analysis rpt, r.adset_id = a.adset_id) := by
  constructor
  · intro r hr hm
    rcases mem_extract hr with ⟨a, ha, hs, used, hre⟩
    subst hre
    rw [mkResult_matched] at hm
    rw [hm, mkResult_none]
    exact ⟨rfl, rfl, rfl, a, ha, hs, rfl, rfl⟩
  · intro a ha hs
    by_cases he : rpt.meta_adsets = []
    · rw [he] at ha
      exact absurd ha (List.not_mem_nil a)
    · rw [extract_of_ne he]
      rcases fold_results_exists _ _ rpt.meta_adsets ([], []) a ha hs with ⟨r, hr, hid⟩
      exact ⟨r, (sortDescBy_perm _ _).mem_iff.mpr hr, hid⟩

/-- C1 amended: results of groups that hit neither id index (equivalently,
results matched by the name or keyword method, which consult the used set)
never share a matched creative id; groups matched through the exact id or
the id front index may reuse a creative, as the counterexample shows. -/
theorem claim_C1 (rpt : Report) :
    (extract_creatives_for_analysis rpt).Pairwise
      (NoReuse (buildIndices rpt.ad_creatives)) := by
  by_cases he : rpt.meta_adsets = []
  · unfold extract_creatives_for_analysis
    rw [if_pos he]
    exact List.Pairwise.nil
  · rw [extract_of_ne he]
    refine (List.Perm.pairwise_iff (fun h => noReuse_symm h) (sortDescBy_perm _ _)).mpr ?_
    refine fold_noReuse _ _ rpt.meta_adsets ([], []) ?_ List.Pairwise.nil
    intro r hr
    exact absurd hr (List.not_mem_nil r)

/-- C1 counterexample: two distinct spending groups whose ids share the
first 12 characters; the first claims the only creative by exact id, the
second reaches it again through the id front index, which never consults
the used set, so both results carry the same matched creative id. -/
theorem claim_C1_cex :
    rptC1.meta_adsets.map Adset.adset_id = ["AAAAAAAAAAAA1", "AAAAAAAAAAAA2"] ∧
    ¬ ((extract_creatives_for_analysis rptC1).Pairwise
        fun r s => ∀ i, matchedId r = some i → matchedId s = some i → False) := by
  refine ⟨by decide, ?_⟩
  intro h
  have h2 : ((extract_creatives_for_analysis rptC1).map matchedId).Pairwise
      (fun x y => ∀ i, x = some i → y = some i → False) := List.pairwise_map.mpr h
  rw [show (extract_creatives_for_analysis rptC1).map matchedId =
      [some "AAAAAAAAAAAA1", some "AAAAAAAAAAAA1"] from by decide] at h2
  have h3 := (List.pairwise_cons.mp h2).1 (some "AAAAAAAAAAAA1") (by simp)
  exact h3 "AAAAAAAAAAAA1" rfl rfl

/-- C2 amended: when the group id is non-empty and some pool record has
exactly that id, the result of that group is matched to a record carrying
that id, and the output ad_id is that id (the exact id method wins). -/
theorem claim_C2 (rpt : Report) (r : MatchResult)
    (h : r ∈ extract_creatives_for_analysis rpt) (hne : r.adset_id ≠ "")
    (hex : ∃ c ∈ rpt.ad_creatives, c.ad_id = r.adset_id) :
    ∃ d, r.matched = some d ∧ d.ad_id = r.adset_id ∧ r.ad_id = r.adset_id := by
  rcases mem_extract h with ⟨a, ha, hs, used, hre⟩
  have hne2 : a.adset_id ≠ "" := by
    rw [hre, mkResult_adset_id] at hne
    exact hne
  have hex2 : ∃ c ∈ rpt.ad_creatives, c.ad_id = a.adset_id := by
    simpa only [hre, mkResult_adset_id] using hex
  rcases buildIndices_adId_found hne2 hex2 with ⟨v, hv, hvid⟩
  have hmatch : matchCreative (buildIndices rpt.ad_creatives) rpt.ad_creatives used a
      = some v := matchCreative_of_byAdId hv
  rw [hre, hmatch]
  refine ⟨v, rfl, ?_, ?_⟩
  · rw [mkResult_adset_id]
    exact hvid
  · rw [mkResult_some_ad_id, mkResult_adset_id]
    exact hvid

/-- C2 counterexample: the pool record and the group both have the empty
id; the record id equals the group id, yet the empty id is never indexed
(the source guards on a truthy ad_id), the other methods fail on these
names, and the result matches nothing. -/
theorem claim_C2_cex :
    rptX2.ad_creatives.map Creative.ad_id = [""] ∧
    rptX2.meta_adsets.map Adset.adset_id = [""] ∧
    rptX2.meta_adsets.map Adset.spend = [1] ∧
    (extract_creatives_for_analysis rptX2).map (fun r => r.matched) = [none] :=
  ⟨by decide, by decide, by decide, by decide⟩

/-- C2 witness: on a concrete run the exact id match is taken. -/
theorem claim_C2_witness :
    ∃ d, (mkResult gW2 (some cW2)).matched = some d ∧
      d.ad_id = (mkResult gW2 (some cW2)).adset_id ∧
      (mkResult gW2 (some cW2)).ad_id = (mkResult gW2 (some cW2)).adset_id :=
  claim_C2 rptW2 (mkResult gW2 (some cW2)) (by decide) (by decide)
    ⟨cW2, by decide, by decide⟩

/-- C7: when the matched record carries backed-up supabase urls the output
media come from those alone; when it carries none and the filtered item
urls are non-empty, the output is that in-order filtered list capped at 7,
and every entry of it is a string starting with http. -/
theorem claim_C7 (rpt : Report) (r : MatchResult) (c : Creative)
    (h : r ∈ extract_creatives_for_analysis rpt) (hm : r.matched = some c) :
    (c.supabase_carousel_urls ≠ [] →
      r.carousel_images = (supabaseUrls c.supabase_carousel_urls).take 7) ∧
    (c.supabase_carousel_urls = [] → itemsFiltered c.carousel_images ≠ [] →
      r.carousel_images = (itemsFiltered c.carousel_images).take 7 ∧
        ∀ m ∈ r.carousel_images,
          ∃ u, m = MediaItem.str u ∧ pyStartsWith "http" u = true) := by
  rcases mem_extract h with ⟨a, _, _, used, hre⟩
  have hmc : matchCreative (buildIndices rpt.ad_creatives) rpt.ad_creatives used a
      = some c := by
    rw [hre, mkResult_matched] at hm
    exact hm
  rw [hre, hmc]
  constructor
  · intro hsb
    rw [mkResult_some_carousel, resolveMedia_supabase hsb]
  · intro hsb hit
    rw [mkResult_some_carousel, resolveMedia_items hsb hit]
    refine ⟨rfl, ?_⟩
    intro m hm2
    exact itemsFiltered_mem (List.take_subset 7 _ hm2)

/-- C7 witness: both branches at concrete records of one run. -/
theorem claim_C7_witness :
    ((mkResult gW7b (some cW7b)).carousel_images =
      (supabaseUrls cW7b.supabase_carousel_urls).take 7) ∧
    ((mkResult gW7a (some cW7a)).carousel_images =
      (itemsFiltered cW7a.carousel_images).take 7 ∧
      ∀ m ∈ (mkResult gW7a (some cW7a)).carousel_images,
        ∃ u, m = MediaItem.str u ∧ pyStartsWith "http" u = true) :=
  ⟨(claim_C7 rptW7 (mkResult gW7b (some cW7b)) cW7b (by decide) (by decide)).1
      (by decide),
   (claim_C7 rptW7 (mkResult gW7a (some cW7a)) cW7a (by decide) (by decide)).2
      (by decide) (by decide)⟩

/-- C8 amended: the single fallback main image url is the whole output
media list when the matched record has no media items and also no
backed-up supabase urls; with supabase urls present they win instead, as
the counterexample shows. -/
theorem claim_C8 (rpt : Report) (r : MatchResult) (c : Creative)
    (h : r ∈ extract_creatives_for_analysis rpt) (hm : r.matched = some c)
    (hsb : c.supabase_carousel_urls = []) (hci : c.carousel_images = [])
    (hmain : mainUrl c ≠ "") :
    r.carousel_images = [MediaItem.str (mainUrl c)] := by
  rcases mem_extract h with ⟨a, _, _, used, hre⟩
  have hmc : matchCreative (buildIndices rpt.ad_creatives) rpt.ad_creatives used a
      = some c := by
    rw [hre, mkResult_matched] at hm
    exact hm
  have hit : itemsFiltered c.carousel_images = [] := by
    rw [hci]
    rfl
  rw [hre, hmc, mkResult_some_carousel, resolveMedia_fallback hsb hit hmain]
  rfl

/-- C8 witness: the fallback url is the sole output entry on a concrete
run. -/
theorem claim_C8_witness :
    (mkResult gW8 (some cW8)).carousel_images = [MediaItem.str (mainUrl cW8)] :=
  claim_C8 rptW8 (mkResult gW8 (some cW8)) cW8 (by decide) (by decide) (by decide)
    (by decide) (by decide)

/-- C8 counterexample: the matched record has no media items and a
non-empty fallback url, yet its backed-up supabase url list is non-empty
and wins, so the output is not the fallback singleton. -/
theorem claim_C8_cex :
    (extract_creatives_for_analysis rptX8).map (fun r => r.matched) = [some cX8] ∧
    cX8.carousel_images = [] ∧ mainUrl cX8 = "f" ∧
    (extract_creatives_for_analysis rptX8).map (fun r => r.carousel_images)
      = [[MediaItem.str "s"]] ∧
    [MediaItem.str "s"] ≠ [MediaItem.str (mainUrl cX8)] :=
  ⟨by decide, by decide, by decide, by decide, by decide⟩

/-- C9: every result exposes a conversion rate computed from its group as
purchases over the derived click count times 100, rounded half-even to two
decimals, where the click count is the truncated impressions times ctr
over 100 and zero when impressions or ctr is zero; the rate is zero when
the click count is zero. -/
theorem claim_C9 (rpt : Report) (r : MatchResult)
    (h : r ∈ extract_creatives_for_analysis rpt) :
    ∃ a ∈ rpt.meta_adsets, 0 < a.spend ∧ r.adset_id = a.adset_id ∧
      derivedClicks a =
        (if a.impressions = 0 ∨ a.ctr = 0 then 0
         else pyInt (a.impressions * a.ctr / 100)) ∧
      r.metrics.cvr =
        pyRound 2 (if 0 < derivedClicks a
          then a.purchases / (derivedClicks a : ℚ) * 100 else 0) ∧
      (derivedClicks a = 0 → r.metrics.cvr = 0) := by
  rcases mem_extract h with ⟨a, ha, hs, used, hre⟩
  subst hre
  refine ⟨a, ha, hs, rfl, ?_, rfl, ?_⟩
  · by_cases h1 : a.impressions = 0 ∨ a.ctr = 0
    · rw [if_pos h1]
      unfold derivedClicks
      rw [if_neg (by tauto)]
    · rw [if_neg h1]
      unfold derivedClicks
      rw [if_pos (by tauto)]
  · intro h0
    show pyRound 2 (derivedCvr a) = 0
    unfold derivedCvr
    rw [h0, if_neg (lt_irrefl 0), pyRound_zero]

/-- C9 witness: the metric formulas at a concrete group with 1000
impressions, ctr 5 and 2 purchases. -/
theorem claim_C9_witness :
    ∃ a ∈ rptW9.meta_adsets, 0 < a.spend ∧
      (mkResult gW9 none).adset_id = a.adset_id ∧
      derivedClicks a =
        (if a.impressions = 0 ∨ a.ctr = 0 then 0
         else pyInt (a.impressions * a.ctr / 100)) ∧
      (mkResult gW9 none).metrics.cvr =
        pyRound 2 (if 0 < derivedClicks a
          then a.purchases / (derivedClicks a : ℚ) * 100 else 0) ∧
      (derivedClicks a = 0 → (mkResult gW9 none).metrics.cvr = 0) :=
  claim_C9 rptW9 (mkResult gW9 none) (by decide)

/-- C10: image_count is the length of the resolved media list before the
cap, is_carousel holds exactly when that pre-cap length exceeds one, the
stored media list length is the minimum of 7 and the pre-cap length; and
on a concrete run with 10 media urls the count is 10 while the stored list
has 7 entries. -/
theorem claim_C10 :
    (∀ (rpt : Report) (r : MatchResult), r ∈ extract_creatives_for_analysis rpt →
      r.image_count = preCap r ∧ (r.is_carousel = true ↔ 1 < preCap r) ∧
        r.carousel_images.length = min 7 (preCap r)) ∧
    (extract_creatives_for_analysis rptX10).map MatchResult.image_count = [10] ∧
    (extract_creatives_for_analysis rptX10).map (fun r => r.carousel_images.length)
      = [7] := by
  refine ⟨?_, by decide, by decide⟩
  intro rpt r h
  rcases mem_extract h with ⟨a, _, _, used, hre⟩
  subst hre
  rcases hmc : matchCreative (buildIndices rpt.ad_creatives) rpt.ad_creatives used a
      with _ | c
  · rw [mkResult_none]
    simp [preCap]
  · refine ⟨rfl, ?_, ?_⟩
    · rw [mkResult_some_isCarousel]
      simp [preCap, mkResult_matched]
    · rw [mkResult_some_carousel, List.length_take]
      simp [preCap, mkResult_matched]

end Recon
